import Mathlib

/-
Verification development for the Policy Navigator repository.

Shallow embedding of the core utility layer:
  * `safe_api_call`            (src/utils/helpers.py, lines 44-81)
  * `chunk_text`               (src/utils/helpers.py, lines 84-117)
  * `prepare_policy_records`   (src/data_ingestion/dataset_loader.py, lines 92-143)
  * `format_policy_response`   (src/utils/helpers.py, lines 120-153)

Python strings are modelled as `List Char`, Python ints as `Int` (with the
loop counters that are provably non-negative kept as `Nat`).  Exceptions
raised by a wrapped operation are modelled as an explicit outcome type, and
the unbounded `while` loop of `chunk_text` is modelled with explicit fuel so
that non-termination of the source loop is expressible as `none` for every
fuel value.
-/

/- ===================================================================
   Part 1: the resilient call wrapper `safe_api_call`
   (src/utils/helpers.py, lines 44-81)

   The wrapped `api_function(*args, **kwargs)` either returns a value or
   raises one of: `requests.exceptions.Timeout`, another
   `requests.exceptions.RequestException`, or any other `Exception`.
   An operation is modelled as a function from the attempt number
   (0-based, the loop variable `attempt`) to the outcome of that call.
   =================================================================== -/

/-- Outcome of one invocation of the wrapped operation: a returned value,
a raised `requests.exceptions.Timeout`, a raised non-timeout
`requests.exceptions.RequestException`, or any other raised `Exception`
(each carrying its `str(e)` message). -/
inductive CallOutcome where
  | success : String → CallOutcome
  | timeout : String → CallOutcome
  | requestError : String → CallOutcome
  | otherError : String → CallOutcome
deriving DecidableEq

/-- Result of `safe_api_call`: either the wrapped function's value, or one of
the error dictionaries `{"error": ..., "details": ...}` built by the wrapper
(`details` is absent in the final `{"error": "Max retries exceeded"}`). -/
inductive ApiResult where
  | ok : String → ApiResult
  | err : String → Option String → ApiResult
deriving DecidableEq

/-- The `for attempt in range(max_retries)` loop of `safe_api_call`
(helpers.py lines 61-79).  `attempt` is the current 0-based attempt number
and the second `Nat` argument is the number of loop iterations left
(`max_retries - attempt`).  The pair returned is the wrapper's result
together with the number of invocations of the wrapped operation made. -/
def safeApiLoop (op : Nat → CallOutcome) : Nat → Nat → ApiResult × Nat
  | attempt, 0 => (ApiResult.err "Max retries exceeded" none, attempt)
  | attempt, remaining + 1 =>
    match op attempt with
    | CallOutcome.success v => (ApiResult.ok v, attempt + 1)
    | CallOutcome.timeout m =>
      -- `if attempt < max_retries - 1: sleep; continue  else: return Timeout`
      if remaining = 0 then (ApiResult.err "Timeout" (some m), attempt + 1)
      else safeApiLoop op (attempt + 1) remaining
    | CallOutcome.requestError m => (ApiResult.err "API unavailable" (some m), attempt + 1)
    | CallOutcome.otherError m => (ApiResult.err "Internal error" (some m), attempt + 1)

/-- `safe_api_call`'s wrapper body, returning both the result and the number
of invocations of the wrapped operation.  `max_retries` is a Python int;
`range(max_retries)` is empty when it is non-positive, which `Int.toNat`
models exactly. -/
def safeApiRun (op : Nat → CallOutcome) (max_retries : Int) : ApiResult × Nat :=
  safeApiLoop op 0 max_retries.toNat

/-- The result returned by `safe_api_call`'s wrapper. -/
def safe_api_call (op : Nat → CallOutcome) (max_retries : Int) : ApiResult :=
  (safeApiRun op max_retries).1

/-- The number of invocations of the wrapped operation performed by the
wrapper. -/
def safeApiCalls (op : Nat → CallOutcome) (max_retries : Int) : Nat :=
  (safeApiRun op max_retries).2

lemma safeApiLoop_calls_le (op : Nat → CallOutcome) :
    ∀ rem attempt, (safeApiLoop op attempt rem).2 ≤ attempt + rem := by
  intro rem
  induction rem with
  | zero => intro attempt; simp [safeApiLoop]
  | succ r ih =>
    intro attempt
    simp only [safeApiLoop]
    cases h : op attempt with
    | success v => simp
    | timeout m =>
      by_cases hr : r = 0
      · simp [hr]
      · simp only [hr, if_false]
        have := ih (attempt + 1)
        omega
    | requestError m => simp
    | otherError m => simp

lemma safeApiLoop_skip (op : Nat → CallOutcome) :
    ∀ (i attempt rem : Nat),
      (∀ j, j < i → ∃ m, op (attempt + j) = CallOutcome.timeout m) → i < rem →
      safeApiLoop op attempt rem = safeApiLoop op (attempt + i) (rem - i) := by
  intro i
  induction i with
  | zero => intro attempt rem _ _; simp
  | succ k ih =>
    intro attempt rem hpre hlt
    obtain ⟨m, hm⟩ := hpre 0 (Nat.succ_pos k)
    rw [Nat.add_zero] at hm
    obtain ⟨r, rfl⟩ : ∃ r, rem = r + 1 := ⟨rem - 1, by omega⟩
    have hr : ¬(r = 0) := by omega
    have step : safeApiLoop op attempt (r + 1) = safeApiLoop op (attempt + 1) r := by
      simp only [safeApiLoop, hm, hr, if_false]
    rw [step]
    have hpre2 : ∀ j, j < k → ∃ m2, op (attempt + 1 + j) = CallOutcome.timeout m2 := by
      intro j hj
      have h := hpre (j + 1) (by omega)
      rwa [show attempt + (j + 1) = attempt + 1 + j by omega] at h
    rw [ih (attempt + 1) r hpre2 (by omega)]
    rw [show attempt + 1 + k = attempt + (k + 1) by omega,
        show r - k = r + 1 - (k + 1) by omega]

/-- C1: For every wrapped operation invoked through `safe_api_call`: at most
`max_retries` invocations are ever made; if the operation times out on every
attempt, exactly `max_retries` invocations are made; if after a (possibly
empty) prefix of timeouts the operation raises a non-timeout
`RequestException` at attempt `i`, the wrapper stops and returns the
`{"error": "API unavailable"}` failure with `i + 1` invocations made; if it
raises any other exception at attempt `i`, the wrapper stops and returns the
`{"error": "Internal error"}` failure with `i + 1` invocations made.  In
particular a single non-timeout exception at the first attempt yields
exactly one invocation. -/
theorem safe_api_call_error_classification (op : Nat → CallOutcome) (mr : Int)
    (i : Nat) (e : String)
    (hpre : ∀ j, j < i → ∃ m, op j = CallOutcome.timeout m)
    (hi : (i : Int) < mr) :
    safeApiCalls op mr ≤ mr.toNat
    ∧ ((∀ j, ∃ m, op j = CallOutcome.timeout m) → safeApiCalls op mr = mr.toNat)
    ∧ (op i = CallOutcome.requestError e →
        safeApiRun op mr = (ApiResult.err "API unavailable" (some e), i + 1))
    ∧ (op i = CallOutcome.otherError e →
        safeApiRun op mr = (ApiResult.err "Internal error" (some e), i + 1)) := by
  have hiN : i < mr.toNat := by omega
  have hskip : safeApiLoop op 0 mr.toNat = safeApiLoop op i (mr.toNat - i) := by
    have h := safeApiLoop_skip op i 0 mr.toNat ?_ hiN
    · simpa using h
    · intro j hj
      simpa using hpre j hj
  obtain ⟨r, hr⟩ : ∃ r, mr.toNat - i = r + 1 := ⟨mr.toNat - i - 1, by omega⟩
  refine ⟨?_, ?_, ?_, ?_⟩
  · have h := safeApiLoop_calls_le op mr.toNat 0
    simpa [safeApiCalls, safeApiRun] using h
  · intro hall
    have hlast : ∃ m, op (mr.toNat - 1) = CallOutcome.timeout m := hall (mr.toNat - 1)
    obtain ⟨m, hm⟩ := hlast
    have hskip2 : safeApiLoop op 0 mr.toNat = safeApiLoop op (mr.toNat - 1) 1 := by
      have h := safeApiLoop_skip op (mr.toNat - 1) 0 mr.toNat ?_ (by omega)
      · rw [h, show mr.toNat - (mr.toNat - 1) = 1 by omega, Nat.zero_add]
      · intro j hj
        simpa using hall j
    have hfin : safeApiLoop op (mr.toNat - 1) 1
        = (ApiResult.err "Timeout" (some m), mr.toNat - 1 + 1) := by
      simp only [safeApiLoop, hm, if_pos]
    simp only [safeApiCalls, safeApiRun, hskip2, hfin]
    omega
  · intro hreq
    have hfin : safeApiLoop op i (r + 1) = (ApiResult.err "API unavailable" (some e), i + 1) := by
      simp only [safeApiLoop, hreq]
    simp only [safeApiRun, hskip, hr, hfin]
  · intro hoth
    have hfin : safeApiLoop op i (r + 1) = (ApiResult.err "Internal error" (some e), i + 1) := by
      simp only [safeApiLoop, hoth]
    simp only [safeApiRun, hskip, hr, hfin]

/-- Witness for C1: an operation that raises a non-timeout request error at
its first attempt is invoked exactly once, and the wrapper returns the
`"API unavailable"` failure carrying the exception's message. -/
theorem safe_api_call_error_classification_witness :
    safeApiRun (fun _ => CallOutcome.requestError "conn reset") 3
      = (ApiResult.err "API unavailable" (some "conn reset"), 1) := by
  have h := safe_api_call_error_classification
    (fun _ => CallOutcome.requestError "conn reset") 3 0 "conn reset"
    (fun j hj => absurd hj (Nat.not_lt_zero j)) (by decide)
  exact h.2.2.1 rfl

/-- C2 (counterexample): an operation that times out on its single allowed
attempt (`max_retries = 1`) makes the wrapper return the failure
`{"error": "Timeout", "details": str(e)}` carrying the exception's own
message, not the message `"max retries exceeded"` the claim states. -/
theorem safe_api_call_timeout_details_counterexample :
    safe_api_call (fun _ => CallOutcome.timeout "slow") 1
      = ApiResult.err "Timeout" (some "slow")
    ∧ safe_api_call (fun _ => CallOutcome.timeout "slow") 1
      ≠ ApiResult.err "Timeout" (some "max retries exceeded")
    ∧ safe_api_call (fun _ => CallOutcome.timeout "slow") 1
      ≠ ApiResult.err "Timeout" (some "Max retries exceeded") := by
  refine ⟨rfl, ?_, ?_⟩ <;> decide

/-- C2 (amended): for every operation that times out on every one of its
`max_retries ≥ 1` attempts, the wrapper returns
`{"error": "Timeout", "details": str(e)}` where `str(e)` is the message of
the final timeout, after exactly `max_retries` invocations; the
`"Max retries exceeded"` result is never produced in this situation. -/
theorem safe_api_call_all_timeouts (op : Nat → CallOutcome) (mr : Int)
    (hmr : 1 ≤ mr) (h : ∀ j : Nat, (j : Int) < mr → ∃ m, op j = CallOutcome.timeout m) :
    ∃ m, op (mr.toNat - 1) = CallOutcome.timeout m
      ∧ safeApiRun op mr = (ApiResult.err "Timeout" (some m), mr.toNat) := by
  obtain ⟨m, hm⟩ := h (mr.toNat - 1) (by omega)
  refine ⟨m, hm, ?_⟩
  have hskip : safeApiLoop op 0 mr.toNat = safeApiLoop op (mr.toNat - 1) 1 := by
    have hstep := safeApiLoop_skip op (mr.toNat - 1) 0 mr.toNat ?_ (by omega)
    · rw [hstep, show mr.toNat - (mr.toNat - 1) = 1 by omega, Nat.zero_add]
    · intro j hj
      have := h j (by omega)
      simpa using this
  have hfin : safeApiLoop op (mr.toNat - 1) 1
      = (ApiResult.err "Timeout" (some m), mr.toNat - 1 + 1) := by
    simp only [safeApiLoop, hm, if_pos]
  rw [safeApiRun, hskip, hfin, show mr.toNat - 1 + 1 = mr.toNat by omega]

/-- Witness for the amended C2: with `max_retries = 2` and every attempt
timing out with message `"slow"`, the wrapper returns the Timeout failure
carrying `"slow"` after exactly 2 invocations. -/
theorem safe_api_call_all_timeouts_witness :
    safeApiRun (fun _ => CallOutcome.timeout "slow") 2
      = (ApiResult.err "Timeout" (some "slow"), 2) := by
  obtain ⟨m, hm, hrun⟩ := safe_api_call_all_timeouts
    (fun _ => CallOutcome.timeout "slow") 2 (by decide)
    (fun j _ => ⟨"slow", rfl⟩)
  have hm2 : m = "slow" := by
    have := hm.symm
    simpa [CallOutcome.timeout.injEq] using this
  rw [hm2] at hrun
  exact hrun

/-- C10: when `safe_api_call` is invoked with a non-positive `max_retries`,
the `range(max_retries)` loop body never runs: the wrapped operation is
never invoked (0 invocations, and the result does not depend on the
operation at all) and the wrapper returns `{"error": "Max retries exceeded"}`. -/
theorem safe_api_call_nonpositive_retries (op : Nat → CallOutcome) (mr : Int)
    (h : mr ≤ 0) :
    safeApiRun op mr = (ApiResult.err "Max retries exceeded" none, 0)
    ∧ ∀ op2 : Nat → CallOutcome, safeApiRun op2 mr = safeApiRun op mr := by
  have h0 : mr.toNat = 0 := by omega
  constructor
  · simp [safeApiRun, h0, safeApiLoop]
  · intro op2
    simp [safeApiRun, h0, safeApiLoop]

/-- Witness for C10: with `max_retries = -2` and an operation that would
succeed immediately, the wrapper still returns the
`"Max retries exceeded"` failure with zero invocations. -/
theorem safe_api_call_nonpositive_retries_witness :
    safeApiRun (fun _ => CallOutcome.success "v") (-2)
      = (ApiResult.err "Max retries exceeded" none, 0) := by
  exact (safe_api_call_nonpositive_retries (fun _ => CallOutcome.success "v") (-2)
    (by decide)).1

/- ===================================================================
   Part 2: the text chunker `chunk_text`
   (src/utils/helpers.py, lines 84-117)

   Python strings are `List Char`; Python's slice/`rfind` index handling
   (negative values count from the end, everything is clamped to
   `[0, len]`) is modelled by `pyIdx`.  The `while start < len(text)`
   loop is modelled with fuel: `none` means the loop has not finished
   within the given fuel, so `(∀ fuel, ... = none)` states that the
   source loop never terminates.
   =================================================================== -/

/-- Python's notion of whitespace used by `str.strip()`. -/
def pyIsSpace (c : Char) : Bool :=
  c = ' ' ∨ c = '\t' ∨ c = '\n' ∨ c = '\r' ∨ c = '\x0b' ∨ c = '\x0c'

/-- Python `str.strip()`: remove leading and trailing whitespace. -/
def pyStrip (s : List Char) : List Char :=
  ((s.dropWhile pyIsSpace).reverse.dropWhile pyIsSpace).reverse

/-- Normalization of one slice/`rfind` index argument for a string of length
`n`, exactly as Python does it: a negative index counts from the end and is
clamped below by 0; a non-negative index is clamped above by `n`. -/
def pyIdx (n : Nat) (i : Int) : Nat :=
  if i < 0 then (n + i).toNat else min i.toNat n

/-- Python slice `s[a:b]`. -/
def pySlice (s : List Char) (a b : Int) : List Char :=
  (s.take (pyIdx s.length b)).drop (pyIdx s.length a)

/-- `sub` occurs in `s` starting at position `p`. -/
def occursAt (s sub : List Char) (p : Nat) : Bool :=
  sub.isPrefixOf (s.drop p)

/-- Backward search used by `str.rfind`: the largest `q ≤ p` with `lo ≤ q`
at which `sub` occurs, if any. -/
def rfindDown (s sub : List Char) (lo : Nat) : Nat → Option Nat
  | 0 => if lo = 0 ∧ occursAt s sub 0 then some 0 else none
  | p + 1 =>
    if lo ≤ p + 1 ∧ occursAt s sub (p + 1) then some (p + 1)
    else rfindDown s sub lo p

/-- Python `s.rfind(sub, i, j)`: the largest position `p` with
`i' ≤ p` and `p + len(sub) ≤ j'` (indices normalized as Python slices do)
at which `sub` occurs, or `none` (Python returns `-1`). -/
def pyRfind (s sub : List Char) (i j : Int) : Option Nat :=
  if sub.length ≤ pyIdx s.length j then
    rfindDown s sub (pyIdx s.length i) (pyIdx s.length j - sub.length)
  else none

/-- The boundary markers of `chunk_text`'s `for punct in ['. ', '? ', '! ', '\n\n']`
loop, in the source's order. -/
def markers : List (List Char) :=
  [['.', ' '], ['?', ' '], ['!', ' '], ['\n', '\n']]

/-- The sentence-boundary adjustment of `chunk_text` (helpers.py lines
105-112): try each marker in the source's order; on the first marker with an
occurrence in `[start, stop)`, the window is shortened to end right after the
last occurrence of that marker (`punct_pos + len(punct)`); with no occurrence
of any marker, `stop` is unchanged. -/
def findBoundary (text : List Char) (start stop : Int) : Int :=
  match pyRfind text ['.', ' '] start stop with
  | some p => (p : Int) + 2
  | none =>
    match pyRfind text ['?', ' '] start stop with
    | some p => (p : Int) + 2
    | none =>
      match pyRfind text ['!', ' '] start stop with
      | some p => (p : Int) + 2
      | none =>
        match pyRfind text ['\n', '\n'] start stop with
        | some p => (p : Int) + 2
        | none => stop

/-- Modelled from the spec (claim C6's reading of the boundary search, for
comparison with `findBoundary`): the cut point is right after the boundary
nearest to the window's end, i.e. the maximum position over all four markers
occurring in the window. -/
def specFindBoundary (text : List Char) (start stop : Int) : Int :=
  match (markers.filterMap (fun m => pyRfind text m start stop)).max? with
  | some p => (p : Int) + 2
  | none => stop

/-- The window end computed by one iteration of `chunk_text`'s loop
(helpers.py lines 103-112): `end = start + chunk_size`, shortened to a
sentence boundary when it falls strictly before the end of the text. -/
def windowEnd (text : List Char) (chunkSize start : Int) : Int :=
  if start + chunkSize < (text.length : Int) then
    findBoundary text start (start + chunkSize)
  else start + chunkSize

/-- The chunk appended by one iteration of `chunk_text`'s loop
(helpers.py line 114): `text[start:end].strip()`. -/
def chunkAt (text : List Char) (chunkSize start : Int) : List Char :=
  pyStrip (pySlice text start (windowEnd text chunkSize start))

/-- The next cursor position of `chunk_text`'s loop (helpers.py line 115):
`start = end - overlap if end < len(text) else end`. -/
def nextStart (text : List Char) (chunkSize overlap start : Int) : Int :=
  if windowEnd text chunkSize start < (text.length : Int) then
    windowEnd text chunkSize start - overlap
  else windowEnd text chunkSize start

/-- The `while start < len(text)` loop of `chunk_text` (helpers.py lines
102-115), with fuel; `none` means the loop did not finish within `fuel`
iterations. -/
def chunkLoop (text : List Char) (chunkSize overlap : Int) :
    Nat → Int → List (List Char) → Option (List (List Char))
  | 0, _, _ => none
  | fuel + 1, start, chunks =>
    if start < (text.length : Int) then
      chunkLoop text chunkSize overlap fuel
        (nextStart text chunkSize overlap start)
        (chunks ++ [chunkAt text chunkSize start])
    else some chunks

/-- `chunk_text(text, chunk_size, overlap)` (helpers.py lines 84-117), with
fuel for its unbounded loop.  A text no longer than `chunk_size` is returned
whole, as a single chunk, before the loop is reached. -/
def chunk_text (text : List Char) (chunk_size overlap : Int) (fuel : Nat) :
    Option (List (List Char)) :=
  if (text.length : Int) ≤ chunk_size then some [text]
  else chunkLoop text chunk_size overlap fuel 0 []


/-- C4 (counterexample): for the text `" a "` (length 3) and
`chunk_size = 5`, `chunk_text` returns the single chunk `" a "` unchanged —
the short-text branch (`return [text]`, helpers.py line 97) performs no
whitespace trimming, so the chunk is not the trimmed input. -/
theorem chunk_text_short_text_untrimmed_counterexample :
    chunk_text (" a ".toList) 5 1 0 = some [" a ".toList]
    ∧ pyStrip (" a ".toList) ≠ " a ".toList := by
  refine ⟨rfl, ?_⟩
  decide

/-- C4 (amended): for every text with `len(text) <= chunkSize`, `chunk_text`
returns exactly one chunk, and that chunk is the input text unchanged (no
whitespace trimming happens on this path). -/
theorem chunk_text_short_text (text : List Char) (chunk_size overlap : Int)
    (fuel : Nat) (h : (text.length : Int) ≤ chunk_size) :
    chunk_text text chunk_size overlap fuel = some [text] := by
  simp [chunk_text, h]

/-- Witness for the amended C4: `"hi"` with `chunk_size = 5` comes back as
the single chunk `"hi"`. -/
theorem chunk_text_short_text_witness :
    chunk_text ("hi".toList) 5 1 0 = some ["hi".toList] := by
  exact chunk_text_short_text ("hi".toList) 5 1 0 (by decide)

/-- Text on which `chunk_text` with the valid parameters
`chunk_size = 10`, `overlap = 3` never terminates: `"a. "` followed by
twenty `'b'`s.  The first window `[0, 10)` is cut back to position 3 (right
after the only `". "`), and the cursor is then moved to `3 - 3 = 0`, so the
loop state repeats forever. -/
def chunkBugText : List Char := "a. bbbbbbbbbbbbbbbbbbbb".toList

lemma chunkLoop_bug_fixpoint :
    ∀ (fuel : Nat) (chunks : List (List Char)),
      chunkLoop chunkBugText 10 3 fuel 0 chunks = none := by
  intro fuel
  induction fuel with
  | zero => intro chunks; rfl
  | succ n ih =>
    intro chunks
    rw [chunkLoop, if_pos (by decide),
        show nextStart chunkBugText 10 3 0 = 0 from by decide]
    exact ih (chunks ++ [chunkAt chunkBugText 10 0])

/-- C3: the chunker does not even produce a chunk sequence for every valid
input: on the 23-character text `"a. " ++ "b" * 20` with `chunk_size = 10`
and `overlap = 3` (so `len(text) > chunk_size` and `0 < overlap < chunk_size`),
the `while` loop of `chunk_text` never terminates — the boundary search cuts
the first window back to position 3 and the cursor `end - overlap` returns
to 0 on every iteration — so no covering sequence of chunks exists. -/
theorem chunk_text_nonterminating_valid_params :
    chunkBugText.length = 23
    ∧ (10 : Int) < (chunkBugText.length : Int)
    ∧ (0 : Int) < 3 ∧ (3 : Int) < 10
    ∧ ∀ fuel : Nat, chunk_text chunkBugText 10 3 fuel = none := by
  refine ⟨rfl, by decide, by decide, by decide, ?_⟩
  intro fuel
  rw [chunk_text, if_neg (by decide)]
  exact chunkLoop_bug_fixpoint fuel []

lemma chunkLoop_invalid_fixpoint :
    ∀ (fuel : Nat) (chunks : List (List Char)),
      chunkLoop ("abc".toList) 0 0 fuel 0 chunks = none := by
  intro fuel
  induction fuel with
  | zero => intro chunks; rfl
  | succ n ih =>
    intro chunks
    rw [chunkLoop, if_pos (by decide),
        show nextStart ("abc".toList) 0 0 0 = 0 from by decide]
    exact ih (chunks ++ [chunkAt ("abc".toList) 0 0])

/-- C5: `chunk_text` performs no parameter validation at all: with the
invalid parameters `chunk_size = 0` and `overlap = 0` (both `chunkSize <= 0`
and `overlap >= chunkSize` hold) and the non-empty text `"abc"`, no
`ConfigurationError` is signalled — instead the `while` loop never
terminates (the window is always empty and the cursor never advances). -/
theorem chunk_text_nonterminating_invalid_params :
    (0 : Int) ≤ 0 ∧ (0 : Int) ≥ 0
    ∧ ∀ fuel : Nat, chunk_text ("abc".toList) 0 0 fuel = none := by
  refine ⟨le_refl 0, le_refl 0, ?_⟩
  intro fuel
  rw [chunk_text, if_neg (by decide)]
  exact chunkLoop_invalid_fixpoint fuel []

lemma rfindDown_eq_some {s sub : List Char} {lo : Nat} :
    ∀ {p q : Nat}, rfindDown s sub lo p = some q →
      lo ≤ q ∧ q ≤ p ∧ occursAt s sub q = true
        ∧ ∀ r, q < r → r ≤ p → occursAt s sub r = false := by
  intro p
  induction p with
  | zero =>
    intro q h
    simp only [rfindDown] at h
    split_ifs at h with hc
    · obtain ⟨rfl⟩ : q = 0 := by simpa using h.symm
      exact ⟨Nat.le_of_eq hc.1, le_refl 0, hc.2, fun r hr hrle => by omega⟩
  | succ n ih =>
    intro q h
    simp only [rfindDown] at h
    split_ifs at h with hc
    · obtain ⟨rfl⟩ : q = n + 1 := by simpa using h.symm
      exact ⟨hc.1, le_refl _, hc.2, fun r hr hrle => by omega⟩
    · obtain ⟨h1, h2, h3, h4⟩ := ih h
      refine ⟨h1, by omega, h3, ?_⟩
      intro r hr hrle
      rcases Nat.lt_or_ge r (n + 1) with hlt | hge
      · exact h4 r hr (by omega)
      · have hreq : r = n + 1 := by omega
        subst hreq
        cases hb : occursAt s sub (n + 1) with
        | false => rfl
        | true => exact absurd ⟨by omega, hb⟩ hc

lemma rfindDown_eq_none {s sub : List Char} {lo : Nat} :
    ∀ {p : Nat}, rfindDown s sub lo p = none →
      ∀ r, lo ≤ r → r ≤ p → occursAt s sub r = false := by
  intro p
  induction p with
  | zero =>
    intro h r h1 h2
    simp only [rfindDown] at h
    split_ifs at h with hc
    have hr0 : r = 0 := by omega
    subst hr0
    cases hb : occursAt s sub 0 with
    | false => rfl
    | true => exact absurd ⟨by omega, hb⟩ hc
  | succ n ih =>
    intro h r h1 h2
    simp only [rfindDown] at h
    split_ifs at h with hc
    rcases Nat.lt_or_ge r (n + 1) with hlt | hge
    · exact ih h r h1 (by omega)
    · have hreq : r = n + 1 := by omega
      subst hreq
      cases hb : occursAt s sub (n + 1) with
      | false => rfl
      | true => exact absurd ⟨h1, hb⟩ hc

lemma pyRfind_eq_some {s sub : List Char} {i j : Int} {p : Nat}
    (h : pyRfind s sub i j = some p) :
    pyIdx s.length i ≤ p ∧ p + sub.length ≤ pyIdx s.length j
      ∧ occursAt s sub p = true
      ∧ ∀ r, p < r → r + sub.length ≤ pyIdx s.length j → occursAt s sub r = false := by
  rw [pyRfind] at h
  split_ifs at h with hle
  obtain ⟨h1, h2, h3, h4⟩ := rfindDown_eq_some h
  refine ⟨h1, by omega, h3, ?_⟩
  intro r hr hrle
  exact h4 r hr (by omega)

lemma pyRfind_eq_none {s sub : List Char} {i j : Int}
    (h : pyRfind s sub i j = none) :
    ∀ r, pyIdx s.length i ≤ r → r + sub.length ≤ pyIdx s.length j →
      occursAt s sub r = false := by
  intro r h1 h2
  rw [pyRfind] at h
  split_ifs at h with hle
  · exact rfindDown_eq_none h r h1 (by omega)
  · exact absurd (by omega) hle

/-- C6 (counterexample): on the text `"a. bbb? cccccccc"` the first window is
`[0, 10)`, which contains `". "` at position 1 and `"? "` at position 6.  The
boundary nearest the window's end is the `"? "`, so the claim's cut point is
8, but `chunk_text` cuts at 3 (the `for`/`break` loop tries `". "` first and
ignores every later marker type), producing first chunk `"a."` rather than
`"a. bbb?"`. -/
theorem findBoundary_priority_counterexample :
    chunk_text ("a. bbb? cccccccc".toList) 10 1 10
      = some ["a.".toList, "bbb?".toList, "cccccccc".toList]
    ∧ findBoundary ("a. bbb? cccccccc".toList) 0 10 = 3
    ∧ specFindBoundary ("a. bbb? cccccccc".toList) 0 10 = 8
    ∧ (3 : Int) ≠ 8 := by
  exact ⟨by decide, by decide, by decide, by decide⟩

/-- C6 (amended): for every window `[lo, hi)`, either no marker occurs in the
window and the window end is unchanged, or `chunk_text` cuts right after the
**last** occurrence of the **first** marker — in the fixed order `". "`,
`"? "`, `"! "`, `"\n\n"` — that occurs in the window at all; every marker
earlier in that order has no occurrence in the window, while markers later
in the order are ignored even when they occur closer to the window's end.
(The claim's "maximum position over all four markers" is not what the code
computes.) -/
theorem findBoundary_priority_cut (text : List Char) (lo hi : Int) :
    (findBoundary text lo hi = hi
      ∧ ∀ m ∈ markers, ∀ q, pyIdx text.length lo ≤ q →
          q + 2 ≤ pyIdx text.length hi → occursAt text m q = false)
    ∨ (∃ (k : Nat) (m : List Char) (p : Nat), markers[k]? = some m
        ∧ pyIdx text.length lo ≤ p ∧ p + 2 ≤ pyIdx text.length hi
        ∧ occursAt text m p = true
        ∧ findBoundary text lo hi = (p : Int) + 2
        ∧ (∀ q, p < q → q + 2 ≤ pyIdx text.length hi → occursAt text m q = false)
        ∧ ∀ (j : Nat) (m2 : List Char), j < k → markers[j]? = some m2 →
            ∀ q, pyIdx text.length lo ≤ q → q + 2 ≤ pyIdx text.length hi →
              occursAt text m2 q = false) := by
  cases h1 : pyRfind text ['.', ' '] lo hi with
  | some p =>
    right
    obtain ⟨ha, hb, hc, hd⟩ := pyRfind_eq_some h1
    refine ⟨0, ['.', ' '], p, rfl, ha, hb, hc, ?_, hd, ?_⟩
    · rw [findBoundary, h1]
    · intro j m2 hj
      exact absurd hj (Nat.not_lt_zero j)
  | none =>
    cases h2 : pyRfind text ['?', ' '] lo hi with
    | some p =>
      right
      obtain ⟨ha, hb, hc, hd⟩ := pyRfind_eq_some h2
      refine ⟨1, ['?', ' '], p, rfl, ha, hb, hc, ?_, hd, ?_⟩
      · rw [findBoundary, h1, h2]
      · intro j m2 hj hjm q hq1 hq2
        interval_cases j
        obtain rfl := Option.some.inj hjm
        exact pyRfind_eq_none h1 q hq1 hq2
    | none =>
      cases h3 : pyRfind text ['!', ' '] lo hi with
      | some p =>
        right
        obtain ⟨ha, hb, hc, hd⟩ := pyRfind_eq_some h3
        refine ⟨2, ['!', ' '], p, rfl, ha, hb, hc, ?_, hd, ?_⟩
        · rw [findBoundary, h1, h2, h3]
        · intro j m2 hj hjm q hq1 hq2
          interval_cases j
          · obtain rfl := Option.some.inj hjm
            exact pyRfind_eq_none h1 q hq1 hq2
          · obtain rfl := Option.some.inj hjm
            exact pyRfind_eq_none h2 q hq1 hq2
      | none =>
        cases h4 : pyRfind text ['\n', '\n'] lo hi with
        | some p =>
          right
          obtain ⟨ha, hb, hc, hd⟩ := pyRfind_eq_some h4
          refine ⟨3, ['\n', '\n'], p, rfl, ha, hb, hc, ?_, hd, ?_⟩
          · rw [findBoundary, h1, h2, h3, h4]
          · intro j m2 hj hjm q hq1 hq2
            interval_cases j
            · obtain rfl := Option.some.inj hjm
              exact pyRfind_eq_none h1 q hq1 hq2
            · obtain rfl := Option.some.inj hjm
              exact pyRfind_eq_none h2 q hq1 hq2
            · obtain rfl := Option.some.inj hjm
              exact pyRfind_eq_none h3 q hq1 hq2
        | none =>
          left
          constructor
          · rw [findBoundary, h1, h2, h3, h4]
          · intro m hm q hq1 hq2
            simp only [markers, List.mem_cons, List.mem_singleton] at hm
            rcases hm with rfl | rfl | rfl | hm
            · exact pyRfind_eq_none h1 q hq1 hq2
            · exact pyRfind_eq_none h2 q hq1 hq2
            · exact pyRfind_eq_none h3 q hq1 hq2
            · rcases hm with rfl | hm
              · exact pyRfind_eq_none h4 q hq1 hq2
              · cases hm

/- ===================================================================
   Part 3: the record normalizer `DatasetLoader.prepare_policy_records`
   (src/data_ingestion/dataset_loader.py, lines 92-143)

   A pandas DataFrame is a fixed column set plus rows; every row has a
   cell for every column, and a cell is either a missing value (NaN) or
   a value (modelled as its string form).  A row is an association list;
   a column absent from it holds NaN, which matches how
   `pd.DataFrame([...])` fills missing keys.  `str(row[col])` on a NaN
   cell is the string "nan"; `pd.notna` is false exactly on NaN.
   =================================================================== -/

/-- One DataFrame cell: missing (NaN) or a value. -/
inductive Cell where
  | na : Cell
  | val : String → Cell
deriving DecidableEq

/-- Python `str()` of a cell: `str(float('nan'))` is `"nan"`. -/
def pyStr : Cell → String
  | Cell.na => "nan"
  | Cell.val v => v

/-- `pd.notna` on a cell. -/
def notna : Cell → Bool
  | Cell.na => false
  | Cell.val _ => true

/-- Cell of `row` at column `c` (a column not stored in the association
list holds NaN). -/
def getCell (row : List (String × Cell)) (c : String) : Cell :=
  (List.lookup c row).getD Cell.na

/-- A DataFrame: its column set and its rows. -/
structure DataFrame where
  columns : List String
  rows : List (List (String × Cell))

/-- A policy record as built by `prepare_policy_records`:
`{'id': ..., 'text': ..., 'attributes': ...}`. -/
structure PolicyRecord where
  id : String
  text : String
  attributes : List (String × String)
deriving DecidableEq

/-- The `for idx, row in df.iterrows()` loop of `prepare_policy_records`
(dataset_loader.py lines 116-138), returning the accumulated records
together with the number of skipped rows (the rows that hit the
`continue` on line 125).  `idx` is the 0-based positional index
(the default pandas index).  Note both membership tests are against the
DataFrame's column set, not the individual row. -/
def prepareLoop (columns : List String) (text_column id_column : String)
    (metadata_columns : List String) :
    Nat → List (List (String × Cell)) → List PolicyRecord × Nat
  | _, [] => ([], 0)
  | idx, row :: rest =>
    let record_id :=
      if id_column ∈ columns then pyStr (getCell row id_column)
      else "doc_" ++ toString idx
    let res := prepareLoop columns text_column id_column metadata_columns (idx + 1) rest
    if text_column ∈ columns then
      (⟨record_id, pyStr (getCell row text_column),
        metadata_columns.filterMap (fun col =>
          if col ∈ columns ∧ notna (getCell row col) then
            some (col, pyStr (getCell row col))
          else none)⟩ :: res.1, res.2)
    else (res.1, res.2 + 1)

/-- `prepare_policy_records(df, text_column, id_column, metadata_columns)`:
the produced records and the number of skipped rows. -/
def prepare_policy_records (df : DataFrame) (text_column id_column : String)
    (metadata_columns : List String) : List PolicyRecord × Nat :=
  prepareLoop df.columns text_column id_column metadata_columns 0 df.rows


lemma prepareLoop_count (columns : List String) (tc ic : String)
    (mc : List String) :
    ∀ (rows : List (List (String × Cell))) (idx : Nat),
      (prepareLoop columns tc ic mc idx rows).1.length
        + (prepareLoop columns tc ic mc idx rows).2 = rows.length := by
  intro rows
  induction rows with
  | nil => intro idx; simp [prepareLoop]
  | cons row rest ih =>
    intro idx
    simp only [prepareLoop]
    by_cases htc : tc ∈ columns
    · simp only [htc, if_pos, List.length_cons]
      have := ih (idx + 1)
      omega
    · simp only [htc, if_false, List.length_cons]
      have := ih (idx + 1)
      omega

lemma doc_id_ne_empty (s : String) : "doc_" ++ s ≠ "" := by
  intro h
  have hl := congrArg String.length h
  rw [String.length_append] at hl
  have h4 : ("doc_" : String).length = 4 := rfl
  have h0 : ("" : String).length = 0 := rfl
  rw [h4, h0] at hl
  omega

lemma prepareLoop_ids (columns : List String) (tc ic : String) (mc : List String) :
    ∀ (rows : List (List (String × Cell))) (idx : Nat),
      (ic ∈ columns → ∀ row ∈ rows, pyStr (getCell row ic) ≠ "") →
      ∀ r ∈ (prepareLoop columns tc ic mc idx rows).1, r.id ≠ "" := by
  intro rows
  induction rows with
  | nil => intro idx _ r hr; simp [prepareLoop] at hr
  | cons row rest ih =>
    intro idx h r hr
    simp only [prepareLoop] at hr
    by_cases htc : tc ∈ columns
    · simp only [htc, if_pos, List.mem_cons] at hr
      rcases hr with rfl | hr
      · by_cases hic : ic ∈ columns
        · simp only [hic, if_pos]
          exact h hic row (List.mem_cons_self row rest)
        · simp only [hic, if_false]
          exact doc_id_ne_empty (toString idx)
      · exact ih (idx + 1) (fun hic row2 hrow2 => h hic row2 (List.mem_cons_of_mem row hrow2)) r hr
    · simp only [htc, if_false] at hr
      exact ih (idx + 1) (fun hic row2 hrow2 => h hic row2 (List.mem_cons_of_mem row hrow2)) r hr

/-- C7 (counterexample): a row whose `id` cell is the empty string produces a
record whose `id` is the empty string — `prepare_policy_records` does not
guarantee non-empty ids.  (The count invariant still holds on this input.) -/
theorem prepare_policy_records_empty_id_counterexample :
    (prepare_policy_records
        ⟨["id", "text"], [[("id", Cell.val ""), ("text", Cell.val "hello")]]⟩
        "text" "id" []).1.map PolicyRecord.id = [""]
    ∧ ((prepare_policy_records
        ⟨["id", "text"], [[("id", Cell.val ""), ("text", Cell.val "hello")]]⟩
        "text" "id" []).1.all (fun r => !(r.id == ""))) = false := by
  exact ⟨rfl, by decide⟩

/-- C7 (amended): for every DataFrame and field mapping, the number of
produced records plus the number of skipped rows equals the number of input
rows, unconditionally; and every produced record's id is non-empty
**provided** that, when the id column is present in the DataFrame, no row's
id cell stringifies to the empty string (synthesized ids `"doc_" + idx` are
always non-empty, and a NaN id cell stringifies to the non-empty `"nan"`). -/
theorem prepare_policy_records_counts_and_ids (df : DataFrame)
    (tc ic : String) (mc : List String) :
    (prepare_policy_records df tc ic mc).1.length
        + (prepare_policy_records df tc ic mc).2 = df.rows.length
    ∧ ((ic ∈ df.columns → ∀ row ∈ df.rows, pyStr (getCell row ic) ≠ "") →
        ∀ r ∈ (prepare_policy_records df tc ic mc).1, r.id ≠ "") := by
  constructor
  · exact prepareLoop_count df.columns tc ic mc df.rows 0
  · intro h
    exact prepareLoop_ids df.columns tc ic mc df.rows 0 h

/-- Witness for the amended C7: one record, zero skips, a non-empty id. -/
theorem prepare_policy_records_counts_and_ids_witness :
    ((prepare_policy_records ⟨["id", "text"], [[("id", Cell.val "p1"), ("text", Cell.val "t")]]⟩
        "text" "id" []).1.length
      + (prepare_policy_records ⟨["id", "text"], [[("id", Cell.val "p1"), ("text", Cell.val "t")]]⟩
        "text" "id" []).2 = 1)
    ∧ ∀ r ∈ (prepare_policy_records ⟨["id", "text"], [[("id", Cell.val "p1"), ("text", Cell.val "t")]]⟩
        "text" "id" []).1, r.id ≠ "" := by
  have h := prepare_policy_records_counts_and_ids
    ⟨["id", "text"], [[("id", Cell.val "p1"), ("text", Cell.val "t")]]⟩
    "text" "id" []
  exact ⟨h.1, h.2 (by decide)⟩

/-- C8 (counterexample): for the claim's scenario rows, assembled into a
DataFrame the way pandas does (columns are the union `["id","text","category"]`
and the second row's missing `id` cell is NaN), the second record's id is
`"nan"` — `str()` of the NaN cell — not the synthesized `"doc_1"`: the
absence check `id_column not in df.columns` is per-DataFrame, not per-row. -/
theorem prepare_policy_records_nan_id_counterexample :
    (prepare_policy_records
        ⟨["id", "text", "category"],
          [[("id", Cell.val "p1"), ("text", Cell.val "hello"), ("category", Cell.val "Env")],
           [("text", Cell.val "world")]]⟩
        "text" "id" ["category"]).1.map PolicyRecord.id = ["p1", "nan"]
    ∧ ("nan" : String) ≠ "doc_1" := by
  exact ⟨rfl, by decide⟩

/-- C8 (amended): the id-absence check is against the DataFrame's column
set, not an individual row's keys: when the id column is absent from the
DataFrame, every produced record's id is synthesized as `"doc_" + rowIndex`;
when it is present, each id is the stringified cell — `"nan"` for a missing
(NaN) cell.  On the claim's scenario the records are
`[{id:"p1", text:"hello", attributes:{category:"Env"}},
  {id:"nan", text:"world", attributes:{}}]` with 0 skipped rows. -/
theorem prepare_policy_records_id_synthesis :
    (∀ (columns : List String) (tc ic : String) (mc : List String)
        (idx : Nat) (rows : List (List (String × Cell))), ic ∉ columns →
        (prepareLoop columns tc ic mc idx rows).1.map PolicyRecord.id
          = if tc ∈ columns then
              (List.range rows.length).map (fun i => "doc_" ++ toString (idx + i))
            else [])
    ∧ prepare_policy_records
        ⟨["id", "text", "category"],
          [[("id", Cell.val "p1"), ("text", Cell.val "hello"), ("category", Cell.val "Env")],
           [("text", Cell.val "world")]]⟩
        "text" "id" ["category"]
      = ([⟨"p1", "hello", [("category", "Env")]⟩, ⟨"nan", "world", []⟩], 0) := by
  constructor
  · intro columns tc ic mc idx rows hic
    induction rows generalizing idx with
    | nil => simp [prepareLoop]
    | cons row rest ih =>
      simp only [prepareLoop, if_neg hic, List.length_cons]
      by_cases htc : tc ∈ columns
      · simp only [htc, if_pos, List.map_cons]
        rw [ih (idx + 1)]
        simp only [htc, if_pos]
        rw [List.range_succ_eq_map, List.map_cons, List.map_map]
        congr 1
        apply List.map_congr_left
        intro a _
        simp only [Function.comp]
        exact congrArg (fun n => "doc_" ++ toString n) (by omega)
      · simp only [htc, if_false]
        rw [ih (idx + 1)]
        simp only [htc, if_false]
  · rfl

/-- Witness for the amended C8: with no id column in the DataFrame, the two
kept rows get the synthesized ids `"doc_0"` and `"doc_1"`. -/
theorem prepare_policy_records_id_synthesis_witness :
    (prepareLoop ["text"] "text" "id" [] 0
        [[("text", Cell.val "x")], []]).1.map PolicyRecord.id
      = ["doc_0", "doc_1"] := by
  have h := (prepare_policy_records_id_synthesis).1 ["text"] "text" "id" [] 0
    [[("text", Cell.val "x")], []] (by decide)
  rw [h]
  decide

/- ===================================================================
   Part 4: the response formatter `format_policy_response`
   (src/utils/helpers.py, lines 120-153)

   The input dict is an association list from key to (string) value;
   `'k' in data` is `List.lookup k data = some v` and `data.get(k, d)`
   is `(List.lookup k data).getD d`.
   =================================================================== -/

/-- `format_policy_response(data)` (helpers.py lines 120-153): the error
branch returns the two-line error block; otherwise the present fields are
emitted in the source's fixed order and joined with newlines. -/
def format_policy_response (data : List (String × String)) : String :=
  match List.lookup "error" data with
  | some e => "Error: " ++ e ++ "\nDetails: " ++ ((List.lookup "details" data).getD "N/A")
  | none =>
    String.intercalate "\n"
      ((match List.lookup "title" data with
        | some t => ["**" ++ t ++ "**\n"]
        | none => []) ++
       (match List.lookup "status" data with
        | some s => ["Status: " ++ s]
        | none => []) ++
       (match List.lookup "publication_date" data with
        | some d => ["Publication Date: " ++ d]
        | none => []) ++
       (match List.lookup "summary" data with
        | some s => ["\nSummary:\n" ++ s]
        | none => []) ++
       (match List.lookup "source" data with
        | some s => ["\nSource: " ++ s]
        | none => []) ++
       (match List.lookup "url" data with
        | some u => ["Link: " ++ u]
        | none => []))

/-- C9: for every input mapping containing the key `"error"`, the formatter
outputs exactly the two-line block `"Error: <error>\nDetails: <details>"`,
where `<details>` is the value at `"details"` or `"N/A"` when absent; and
the output depends on nothing but the values at `"error"` and `"details"` —
any two mappings agreeing there format identically. -/
theorem format_policy_response_error_branch (data : List (String × String))
    (e : String) (h : List.lookup "error" data = some e) :
    format_policy_response data
      = "Error: " ++ e ++ "\nDetails: " ++ ((List.lookup "details" data).getD "N/A")
    ∧ ∀ data2 : List (String × String), List.lookup "error" data2 = some e →
        List.lookup "details" data2 = List.lookup "details" data →
        format_policy_response data2 = format_policy_response data := by
  constructor
  · rw [format_policy_response, h]
  · intro data2 h2 hd
    rw [format_policy_response, h2, format_policy_response, h, hd]

/-- Witness for C9 (the claim's scenario): `{error: "Timeout",
details: "took too long"}` formats to exactly
`"Error: Timeout\nDetails: took too long"`. -/
theorem format_policy_response_error_branch_witness :
    format_policy_response [("error", "Timeout"), ("details", "took too long")]
      = "Error: Timeout\nDetails: took too long" := by
  have h := format_policy_response_error_branch
    [("error", "Timeout"), ("details", "took too long")] "Timeout" (by rfl)
  exact h.1.trans (by rfl)
